import Mathlib

/-
Verification development for the fetch_4chan repository.

The Python sources (fetcher/utils.py, fetcher/network.py) are embedded
shallowly: pure data transformations become Lean functions, file-system
effects become explicit state passing over a map from paths to file
contents, network calls become an environment oracle that yields either a
payload or an error, and Python exceptions become Option/Except failure
values.  Machine behaviour that the claims do not touch (HTTP transport
internals, tqdm progress display) is not modelled.
-/

namespace FetchFourChan

/-- JSON-representable values appearing in the records this program writes:
every record field built by the code is either a string or a
non-negative integer. -/
inductive Val where
  | str : String → Val
  | nat : Nat → Val
deriving DecidableEq, Repr

/-- A record as built by the Python code: an insertion-ordered dictionary
with string keys, serialized by json.dumps in insertion order. -/
abbrev Record := List (String × Val)

/-- Concatenation of a list of strings. -/
def concatAll : List String → String
  | [] => ""
  | s :: rest => s ++ concatAll rest

/-- Join a list of strings with a separator, as str.join does. -/
def joinSep (sep : String) : List String → String
  | [] => ""
  | s :: rest => s ++ concatAll (rest.map fun t => sep ++ t)

/-- Lowercase hexadecimal digit character for n mod 16, computed from the
character codes (48 is the code of the zero digit, 87 + 10 the code of the
letter a). -/
def hexDigit (n : Nat) : Char :=
  if n % 16 < 10 then Char.ofNat (48 + n % 16) else Char.ofNat (87 + n % 16)

/-- Little-endian decimal digit characters of n, with explicit fuel so the
definition is structurally recursive and computable by the kernel. -/
def natDigitsFuel : Nat → Nat → List Char
  | 0, _ => []
  | fuel + 1, n => if n = 0 then [] else hexDigit (n % 10) :: natDigitsFuel fuel (n / 10)

/-- Decimal rendering of a natural number, as Python str renders int. -/
def natRepr (n : Nat) : String :=
  if n = 0 then "0" else String.mk (natDigitsFuel n n).reverse

/-- Escaping of one character inside a JSON string literal, following
json.dumps: quote, backslash and common control characters get two-character
escapes, other control characters get a \x75-escape, everything else passes
through unchanged. -/
def escChar (c : Char) : String :=
  if c = '"' then "\\\""
  else if c = '\\' then "\\\\"
  else if c = '\n' then "\\n"
  else if c = '\r' then "\\r"
  else if c = '\t' then "\\t"
  else if c.toNat < 32 then "\\u00" ++ String.mk [hexDigit (c.toNat / 16), hexDigit (c.toNat % 16)]
  else String.singleton c

/-- Escaping of a whole string for a JSON string literal. -/
def escStr (s : String) : String := concatAll (s.data.map escChar)

/-- Serialization of one value, as json.dumps serializes it. -/
def dumpVal : Val → String
  | .str s => "\"" ++ escStr s ++ "\""
  | .nat n => natRepr n

/-- Serialization of one record, as json.dumps serializes a dict: braces
around comma-separated key-value pairs in insertion order. -/
def dumps (r : Record) : String :=
  "\x7b" ++ joinSep ", " (r.map fun kv => dumpVal (.str kv.1) ++ ": " ++ dumpVal kv.2) ++ "\x7d"

/-- The block of text save_to_json appends for a record sequence: one
serialized record per line, each line terminated by a newline. -/
def linesOf (rs : List Record) : String :=
  concatAll (rs.map fun r => dumps r ++ "\n")

/-- A file system as the writer observes it: a map from path strings to
file contents; none means the file does not exist. -/
abbrev FS := String → Option String

/-- Replace the contents of one file. -/
def FS.set (fs : FS) (p c : String) : FS := fun q => if q = p then some c else fs q

/-- A file system with no files. -/
def emptyFS : FS := fun _ => none

/-- Result of one save_to_json call: the updated file system, whether the
call raised to its caller, and the log messages it emitted. -/
structure SaveResult where
  fs : FS
  raised : Bool
  log : List String

/-- The write loop of save_to_json over the open file handle, one record
per iteration.  failAt models an injected I/O fault: some k means the
write of record k raises; none means every write succeeds.  The
accumulator is the text written so far, which persists in the file because
the scoped handle is closed (and flushed) whether or not a write raised. -/
def writeLoop : List Record → Option Nat → String → String × Bool
  | [], _, acc => (acc, false)
  | e :: rest, none, acc => writeLoop rest none (acc ++ (dumps e ++ "\n"))
  | _ :: _, some 0, acc => (acc, true)
  | e :: rest, some (k + 1), acc => writeLoop rest (some k) (acc ++ (dumps e ++ "\n"))

/-- save_to_json from fetcher/utils.py with an injected fault position:
opens the target in append or truncate mode, writes each record as one
JSON line through the single scoped handle, logs the save, and on a write
failure logs the error and re-raises (raised = true). -/
def save_to_json_run (data : List Record) (filename : String) (append : Bool) (failAt : Option Nat) (fs : FS) : SaveResult :=
  let old := if append then (fs filename).getD "" else ""
  let r := writeLoop data failAt ""
  { fs := FS.set fs filename (old ++ r.1),
    raised := r.2,
    log := ("Saving data to " ++ filename) ::
      (if r.2 then ["Error saving data to " ++ filename] else []) }

/-- save_to_json from fetcher/utils.py on a fault-free file system. -/
def save_to_json (data : List Record) (filename : String) (append : Bool) (fs : FS) : FS :=
  (save_to_json_run data filename append none fs).fs

/-- The static allow-list of board names from validate_board_name. -/
def valid_boards : List String :=
  ["po", "g", "b", "hr", "biz", "fit", "pol", "sci", "tech", "news"]

/-- validate_board_name from fetcher/utils.py: ok when the board is in the
allow-list, otherwise the ValueError carrying the offending value. -/
def validate_board_name (board : String) : Except String Unit :=
  if board ∈ valid_boards then Except.ok ()
  else Except.error ("The board \x27" ++ board ++ "\x27 is not a valid 4chan board.")

/-- os.path.join on two relative components. -/
def pathJoin (a b : String) : String := a ++ "/" ++ b

/-- Path of the shared thread starter file under the board base path. -/
def threadListPath (basePath : String) : String := pathJoin basePath "thread_list.json"

/-- File name of the per-thread image file. -/
def imageFileName (board : String) (tn : Nat) : String :=
  board ++ "-" ++ natRepr tn ++ "_ImageURLs.json"

/-- Path of the per-thread image file under the board base path. -/
def imagePath (basePath board : String) (tn : Nat) : String :=
  pathJoin (pathJoin basePath "images") (imageFileName board tn)

/-- Side effects observable during FourChanFetcher construction. -/
inductive InitEvent where
  | mkdirs : String → InitEvent
  | httpGet : String → InitEvent
deriving DecidableEq, Repr

/-- create_directories from fetcher/utils.py: returns the board base path
and the single directory-creation effect it performs. -/
def create_directories (board outputDir : String) : String × InitEvent :=
  (pathJoin outputDir board, .mkdirs (pathJoin (pathJoin outputDir board) "images"))

/-- FourChanFetcher.__init__ from fetcher/network.py: validates the board
first, then creates the output layout; the returned event list records
every side effect performed, and a validation failure produces the error
before any effect. -/
def fetcherInit (board outputDir : String) : Except String String × List InitEvent :=
  match validate_board_name board with
  | .error e => (.error e, [])
  | .ok _ =>
    let cd := create_directories board outputDir
    (.ok cd.1, [cd.2])

/-- A raw post object as the thread endpoint returns it: every field the
code reads is optional in the JSON, so each is an Option; none models an
absent key, for which a direct subscript raises KeyError and .get yields
the supplied default. -/
structure Post where
  no : Option Nat := none
  sub : Option String := none
  now : Option String := none
  name : Option String := none
  time : Option Nat := none
  semantic_url : Option String := none
  replies : Option Nat := none
  images : Option Nat := none
  com : Option String := none
  filename : Option String := none
  ext : Option String := none
  w : Option Nat := none
  h : Option Nat := none
  md5 : Option String := none
  fsize : Option Nat := none
  resto : Option Nat := none
  tim : Option Nat := none
deriving DecidableEq, Repr

/-- A post with every field absent. -/
def blankPost : Post := {}

/-- Raw thread payload: a JSON object whose posts key is optional, read
with thread_data.get. -/
structure ThreadData where
  posts : Option (List Post) := none
deriving DecidableEq, Repr

/-- A thread summary inside a catalog page; the selection loop subscripts
its no key directly, so it is optional here. -/
structure ThreadSummary where
  no : Option Nat := none
deriving DecidableEq, Repr

/-- A catalog page: a JSON object whose threads key is read with
page.get and so is optional. -/
structure Page where
  threads : Option (List ThreadSummary) := none
deriving DecidableEq, Repr

/-- API base used for catalog and thread URLs (BASE_URL in the source). -/
def BASE_URL : String := "https://a.4cdn.org"

/-- Image host base used for synthesized image URLs (IMAGE_URL in the
source). -/
def IMAGE_URL : String := "https://i.4cdn.org"

/-- The thread starter record save_thread_starter builds for one post that
carries a sub key, given the value n of its (directly subscripted) no
key; every other field falls back to the .get default. -/
def starterRecord (p : Post) (n : Nat) : Record :=
  [("no", .nat n),
   ("now", .str (p.now.getD "")),
   ("name", .str (p.name.getD "")),
   ("sub", .str (p.sub.getD "")),
   ("time", .nat (p.time.getD 0)),
   ("semantic_url", .str (p.semantic_url.getD "")),
   ("replies", .nat (p.replies.getD 0)),
   ("images", .nat (p.images.getD 0))]

/-- The image post record save_image_posts builds for one post carrying
both tim and ext keys, given the values n, t, e of its no, tim and ext
keys; the url field is synthesized from the image host, the board, tim
and ext. -/
def imageRecord (imgURL board : String) (p : Post) (n t : Nat) (e : String) : Record :=
  [("no", .nat n),
   ("now", .str (p.now.getD "")),
   ("name", .str (p.name.getD "")),
   ("com", .str (p.com.getD "")),
   ("filename", .str (p.filename.getD "")),
   ("ext", .str e),
   ("w", .nat (p.w.getD 0)),
   ("h", .nat (p.h.getD 0)),
   ("time", .nat (p.time.getD 0)),
   ("md5", .str (p.md5.getD "")),
   ("fsize", .nat (p.fsize.getD 0)),
   ("resto", .nat (p.resto.getD 0)),
   ("url", .str (imgURL ++ "/" ++ board ++ "/" ++ natRepr t ++ e))]

/-- The record-building pass of save_thread_starter: keep the posts whose
sub key is present, in order, and build one starterRecord for each; the
direct subscript of a missing no key raises KeyError, modelled as none
for the whole pass. -/
def extract_thread_starters : List Post → Option (List Record)
  | [] => some []
  | p :: rest =>
    if p.sub.isSome then
      match p.no with
      | none => none
      | some n => (extract_thread_starters rest).map (starterRecord p n :: ·)
    else extract_thread_starters rest

/-- The record-building pass of save_image_posts: keep the posts whose tim
and ext keys are both present, in order, and build one imageRecord for
each; the direct subscript of a missing no key raises KeyError, modelled
as none for the whole pass. -/
def extract_image_posts (imgURL board : String) : List Post → Option (List Record)
  | [] => some []
  | p :: rest =>
    if p.tim.isSome && p.ext.isSome then
      match p.no, p.tim, p.ext with
      | some n, some t, some e =>
        (extract_image_posts imgURL board rest).map (imageRecord imgURL board p n t e :: ·)
      | _, _, _ => none
    else extract_image_posts imgURL board rest

/-- save_thread_starter from fetcher/network.py over the file-system
state: extract the starter records and append them to thread_list.json;
a KeyError during extraction propagates to the caller as an error. -/
def save_thread_starter (basePath : String) (td : ThreadData) (fs : FS) : Except String FS :=
  match extract_thread_starters (td.posts.getD []) with
  | none => .error "KeyError: \x27no\x27"
  | some recs => .ok (save_to_json recs (threadListPath basePath) true fs)

/-- save_image_posts from fetcher/network.py over the file-system state:
extract the image records and overwrite the per-thread image file with
them; a KeyError during extraction propagates to the caller as an
error. -/
def save_image_posts (board basePath : String) (td : ThreadData) (tn : Nat) (fs : FS) : Except String FS :=
  match extract_image_posts IMAGE_URL board (td.posts.getD []) with
  | none => .error "KeyError: \x27no\x27"
  | some recs => .ok (save_to_json recs (imagePath basePath board tn) false fs)

/-- Environment oracle for the network: the outcome of the single catalog
fetch of a run and the outcome of each per-thread fetch, as the remote
service and transport would deliver them (ok payload, or the raised
transport/decode error). -/
structure Env where
  catalogResult : Except String (List Page)
  threadResult : Nat → Except String ThreadData

/-- Mutable run state seen by one task: the file system and the error log
entries emitted so far. -/
structure RunState where
  fs : FS
  errLog : List String

/-- Body of fetch_and_save_thread before its exception handler: fetch the
thread, then run both saves in order.  The result pairs the state after
whatever writes completed with the raised exception text, if any; a
failure after the thread_list.json append keeps that append. -/
def threadPipeline (env : Env) (board basePath : String) (tn : Nat) (st : RunState) : RunState × Option String :=
  match env.threadResult tn with
  | .error e => (st, some e)
  | .ok td =>
    match save_thread_starter basePath td st.fs with
    | .error e => (st, some e)
    | .ok fs1 =>
      match save_image_posts board basePath td tn fs1 with
      | .error e => ({ st with fs := fs1 }, some e)
      | .ok fs2 => ({ st with fs := fs2 }, none)

/-- fetch_and_save_thread from fetcher/network.py: run the pipeline and
catch any exception at the task boundary, logging it with the thread
number; the task itself never raises. -/
def fetch_and_save_thread (env : Env) (board basePath : String) (tn : Nat) (st : RunState) : RunState :=
  match threadPipeline env board basePath tn st with
  | (st1, none) => st1
  | (st1, some e) =>
    { st1 with errLog := st1.errLog ++ ["Failed to process thread " ++ natRepr tn ++ ": " ++ e] }

/-- Left-to-right mapping of a fallible access over a list, as a Python
list comprehension behaves: the first raised access aborts the whole
comprehension. -/
def mapOrFail {α β : Type} (f : α → Option β) : List α → Option (List β)
  | [] => some []
  | a :: l =>
    match f a, mapOrFail f l with
    | some b, some bs => some (b :: bs)
    | _, _ => none

/-- The flattening loop of fetch_top_threads: all pages in page order,
each page contributing its threads list (default empty) in order. -/
def flattenCatalog (catalog : List Page) : List ThreadSummary :=
  (catalog.map fun page => page.threads.getD []).flatten

/-- The selection step of fetch_top_threads: slice the flattened catalog
at [offset, offset + count) and subscript the no key of each summary in
the slice; a missing no key raises KeyError, modelled as none. -/
def selectThreads (catalog : List Page) (count offset : Nat) : Option (List Nat) :=
  mapOrFail (fun t => t.no) (((flattenCatalog catalog).drop offset).take count)

/-- fetch_top_threads from fetcher/network.py over the environment oracle:
fetch the catalog (a failure propagates), select the thread numbers (a
KeyError propagates through the outer handler, which logs and re-raises),
then run one fetch_and_save_thread task per selected thread.  The tasks
run concurrently in the source; their effect on the file system and log
is modelled in submission order, and no task failure escapes its own
boundary, so the fold is total. -/
def fetch_top_threads (env : Env) (board basePath : String) (count offset : Nat) (st : RunState) : Except String RunState :=
  match env.catalogResult with
  | .error e => .error e
  | .ok catalog =>
    match selectThreads catalog count offset with
    | none => .error "KeyError: \x27no\x27"
    | some sel => .ok (sel.foldl (fun s tn => fetch_and_save_thread env board basePath tn s) st)

/-- The worker bound of the ThreadPoolExecutor in fetch_top_threads
(max_workers=5 in the source). -/
def max_workers : Nat := 5

/-- State of the worker pool: tasks not yet dispatched in submission
order, tasks currently in flight, tasks already completed. -/
structure PoolState where
  pending : List Nat
  inFlight : List Nat
  completed : List Nat
deriving DecidableEq, Repr

/-- One scheduling step of the bounded pool: a worker picks up the next
pending task only while fewer than max_workers tasks are in flight, and
any in-flight task may complete. -/
inductive PoolStep : PoolState → PoolState → Prop where
  | dispatch (tn : Nat) (pending inFlight completed : List Nat)
      (hlt : inFlight.length < max_workers) :
      PoolStep ⟨tn :: pending, inFlight, completed⟩ ⟨pending, tn :: inFlight, completed⟩
  | complete (tn : Nat) (pending front back completed : List Nat) :
      PoolStep ⟨pending, front ++ tn :: back, completed⟩ ⟨pending, front ++ back, tn :: completed⟩

/-- The pool as fetch_top_threads starts it: every selected thread number
pending, nothing in flight, nothing completed. -/
def initPool (sel : List Nat) : PoolState := ⟨sel, [], []⟩

/-- Pool states reachable during a run that selected sel. -/
def poolReachable (sel : List Nat) : PoolState → Prop :=
  Relation.ReflTransGen PoolStep (initPool sel)

/-- Absence of the newline character, the line separator of the
line-delimited output format. -/
abbrev nlFree (s : String) : Prop := '\n' ∉ s.data

/-- A post that carries a subject but no post number: a thread payload the
remote API could in principle deliver, on which the starter extraction
subscripts a missing no key. -/
def subOnlyPost : Post := { blankPost with sub := some "OP" }

/-- A fully-formed opening post carrying subject, post number and file
metadata. -/
def imgPost : Post :=
  { blankPost with no := some 7, tim := some 160, ext := some ".jpg", sub := some "OP" }

/-- A second fully-formed opening post with different values, for
re-fetch scenarios. -/
def imgPost2 : Post :=
  { blankPost with no := some 8, tim := some 161, ext := some ".png", sub := some "OP2" }

/-- Thread payload containing imgPost. -/
def tdA : ThreadData := { posts := some [imgPost] }

/-- Thread payload containing imgPost2. -/
def tdB : ThreadData := { posts := some [imgPost2] }

/-- Thread payload with an empty posts array. -/
def tdEmpty : ThreadData := { posts := some [] }

/-- A one-page catalog with three thread summaries. -/
def cat1 : List Page :=
  [{ threads := some [{ no := some 111 }, { no := some 222 }, { no := some 333 }] }]

/-- Environment whose every thread fetch yields tdA. -/
def envA : Env := { catalogResult := .ok [], threadResult := fun _ => .ok tdA }

/-- Environment whose every thread fetch yields tdB. -/
def envB : Env := { catalogResult := .ok [], threadResult := fun _ => .ok tdB }

/-- Environment whose every thread fetch yields the empty thread. -/
def envEmpty : Env := { catalogResult := .ok [], threadResult := fun _ => .ok tdEmpty }

/-- Environment over cat1 in which the fetch of thread 111 fails with a
transport error and every other fetch succeeds. -/
def envMixed : Env :=
  { catalogResult := .ok cat1,
    threadResult := fun tn => if tn = 111 then .error "ConnectionError" else .ok tdA }

/-- Environment whose catalog fetch itself fails. -/
def envCatFail : Env := { catalogResult := .error "Timeout", threadResult := fun _ => .ok tdA }

/-- Environment whose catalog fetch yields cat1 and every thread fetch
succeeds. -/
def envCat1 : Env := { catalogResult := .ok cat1, threadResult := fun _ => .ok tdA }

/-- The initial run state: empty file system, empty error log. -/
def rs0 : RunState := { fs := emptyFS, errLog := [] }

/-- Sample record with two fields. -/
def rec0 : Record := [("no", .nat 1), ("sub", .str "hi")]

/-- Sample record with one field. -/
def rec1 : Record := [("no", .nat 2)]

theorem str_append_empty (s : String) : s ++ "" = s := by
  have h : (s ++ "").data = s.data := by simp [String.data_append]
  exact congrArg String.mk h

theorem str_empty_append (s : String) : "" ++ s = s := by
  have h : ("" ++ s).data = s.data := by simp [String.data_append]
  exact congrArg String.mk h

theorem str_append_cancel {s t u : String} (h : s ++ t = s ++ u) : t = u := by
  have hd := congrArg String.data h
  rw [String.data_append, String.data_append] at hd
  exact congrArg String.mk (List.append_cancel_left hd)

theorem nlFree_append {a b : String} (ha : nlFree a) (hb : nlFree b) : nlFree (a ++ b) := by
  unfold nlFree at ha hb ⊢
  rw [String.data_append]
  intro h
  rcases List.mem_append.mp h with h1 | h1
  · exact ha h1
  · exact hb h1

theorem nlFree_concatAll {l : List String} (h : ∀ s ∈ l, nlFree s) : nlFree (concatAll l) := by
  induction l with
  | nil => exact (by decide : nlFree "")
  | cons s rest ih =>
    simp only [concatAll]
    exact nlFree_append (h s (by simp)) (ih fun t ht => h t (by simp [ht]))

theorem nlFree_joinSep {sep : String} {l : List String} (hsep : nlFree sep)
    (h : ∀ s ∈ l, nlFree s) : nlFree (joinSep sep l) := by
  cases l with
  | nil => exact (by decide : nlFree "")
  | cons s rest =>
    simp only [joinSep]
    refine nlFree_append (h s (by simp)) (nlFree_concatAll ?_)
    intro t ht
    obtain ⟨u, hu, rfl⟩ := List.mem_map.mp ht
    exact nlFree_append hsep (h u (by simp [hu]))

theorem hexDigit_ne_nl (n : Nat) : hexDigit n ≠ '\n' := by
  have h : n % 16 < 16 := Nat.mod_lt _ (by omega)
  unfold hexDigit
  set m := n % 16 with hm
  interval_cases m <;> decide

theorem natDigitsFuel_nl (fuel n : Nat) : '\n' ∉ natDigitsFuel fuel n := by
  induction fuel generalizing n with
  | zero => simp [natDigitsFuel]
  | succ f ih =>
    by_cases h : n = 0
    · simp [natDigitsFuel, h]
    · simp only [natDigitsFuel, if_neg h]
      intro hm
      rcases List.mem_cons.mp hm with h1 | h1
      · exact hexDigit_ne_nl _ h1.symm
      · exact ih _ h1

theorem nlFree_natRepr (n : Nat) : nlFree (natRepr n) := by
  unfold natRepr nlFree
  by_cases h : n = 0
  · rw [if_pos h]; decide
  · rw [if_neg h]
    intro hm
    rw [show (String.mk (natDigitsFuel n n).reverse).data = (natDigitsFuel n n).reverse from rfl] at hm
    exact natDigitsFuel_nl n n (List.mem_reverse.mp hm)

theorem nlFree_escChar (c : Char) : nlFree (escChar c) := by
  unfold escChar
  split_ifs with h1 h2 h3 h4 h5 h6
  · decide
  · decide
  · decide
  · decide
  · decide
  · refine nlFree_append (by decide) ?_
    intro hm
    rw [show (String.mk [hexDigit (c.toNat / 16), hexDigit (c.toNat % 16)]).data =
        [hexDigit (c.toNat / 16), hexDigit (c.toNat % 16)] from rfl] at hm
    rcases List.mem_cons.mp hm with h7 | h7
    · exact hexDigit_ne_nl _ h7.symm
    · rcases List.mem_cons.mp h7 with h8 | h8
      · exact hexDigit_ne_nl _ h8.symm
      · simp at h8
  · intro hm
    rw [show (String.singleton c).data = [c] from rfl] at hm
    rcases List.mem_cons.mp hm with h7 | h7
    · exact h3 h7.symm
    · simp at h7

theorem nlFree_escStr (s : String) : nlFree (escStr s) := by
  refine nlFree_concatAll ?_
  intro t ht
  obtain ⟨c, _, rfl⟩ := List.mem_map.mp ht
  exact nlFree_escChar c

theorem nlFree_dumpVal (v : Val) : nlFree (dumpVal v) := by
  cases v with
  | str s => exact nlFree_append (nlFree_append (by decide) (nlFree_escStr s)) (by decide)
  | nat n => exact nlFree_natRepr n

theorem nlFree_dumps (r : Record) : nlFree (dumps r) := by
  unfold dumps
  refine nlFree_append (nlFree_append (by decide) ?_) (by decide)
  refine nlFree_joinSep (by decide) ?_
  intro t ht
  obtain ⟨kv, _, rfl⟩ := List.mem_map.mp ht
  exact nlFree_append (nlFree_append (nlFree_dumpVal _) (by decide)) (nlFree_dumpVal _)

theorem FS.set_self (fs : FS) (p c : String) : FS.set fs p c p = some c := by
  simp [FS.set]

theorem FS.set_other (fs : FS) {p q : String} (c : String) (h : q ≠ p) :
    FS.set fs p c q = fs q := by
  simp [FS.set, h]

theorem writeLoop_none (data : List Record) (acc : String) :
    writeLoop data none acc = (acc ++ linesOf data, false) := by
  induction data generalizing acc with
  | nil => simp [writeLoop, linesOf, concatAll, str_append_empty]
  | cons e rest ih =>
    simp only [writeLoop]
    rw [ih]
    simp [linesOf, concatAll, String.append_assoc]

theorem writeLoop_stop (data : List Record) (k : Nat) (acc : String) (h : k < data.length) :
    writeLoop data (some k) acc = (acc ++ linesOf (data.take k), true) := by
  induction data generalizing k acc with
  | nil => simp at h
  | cons e rest ih =>
    cases k with
    | zero => simp [writeLoop, linesOf, concatAll, str_append_empty]
    | succ k2 =>
      simp only [writeLoop]
      rw [ih _ _ (by simpa using h)]
      simp [linesOf, concatAll, String.append_assoc]

theorem save_to_json_spec (data : List Record) (filename : String) (append : Bool) (fs : FS) :
    save_to_json data filename append fs =
      FS.set fs filename ((if append then (fs filename).getD "" else "") ++ linesOf data) := by
  unfold save_to_json save_to_json_run
  rw [writeLoop_none]
  simp [str_empty_append]

theorem mapOrFail_eq_map {α β : Type} (f : α → Option β) (g : α → β) :
    ∀ l : List α, (∀ a ∈ l, f a = some (g a)) → mapOrFail f l = some (l.map g) := by
  intro l
  induction l with
  | nil => intro _; rfl
  | cons a t ih =>
    intro h
    simp only [mapOrFail, h a (by simp), ih fun b hb => h b (by simp [hb]), List.map]

theorem extract_thread_starters_length :
    ∀ posts : List Post, (∀ p ∈ posts, p.sub.isSome = true → p.no.isSome = true) →
      ∃ out, extract_thread_starters posts = some out ∧
        out.length = (posts.filter fun p => p.sub.isSome).length := by
  intro posts
  induction posts with
  | nil => exact fun _ => ⟨[], rfl, rfl⟩
  | cons p rest ih =>
    intro h
    obtain ⟨out, hout, hlen⟩ := ih fun q hq hs => h q (by simp [hq]) hs
    by_cases hs : p.sub.isSome = true
    · obtain ⟨n, hn⟩ := Option.isSome_iff_exists.mp (h p (by simp) hs)
      refine ⟨starterRecord p n :: out, ?_, ?_⟩
      · simp only [extract_thread_starters, if_pos hs, hn, hout, Option.map_some']
      · simp [List.filter_cons, hs, hlen]
    · refine ⟨out, ?_, ?_⟩
      · simp only [extract_thread_starters, if_neg hs, hout]
      · simp [List.filter_cons, hs, hlen]

theorem extract_image_posts_some (imgURL board : String) :
    ∀ posts : List Post,
      (∀ p ∈ posts, (p.tim.isSome && p.ext.isSome) = true → p.no.isSome = true) →
      ∃ out, extract_image_posts imgURL board posts = some out := by
  intro posts
  induction posts with
  | nil => exact fun _ => ⟨[], rfl⟩
  | cons p rest ih =>
    intro h
    obtain ⟨out, hout⟩ := ih fun q hq hs => h q (by simp [hq]) hs
    by_cases hg : (p.tim.isSome && p.ext.isSome) = true
    · obtain ⟨ht, he⟩ := Bool.and_eq_true_iff.mp hg
      obtain ⟨t, htim⟩ := Option.isSome_iff_exists.mp ht
      obtain ⟨e, hext⟩ := Option.isSome_iff_exists.mp he
      obtain ⟨n, hn⟩ := Option.isSome_iff_exists.mp (h p (by simp) hg)
      refine ⟨imageRecord imgURL board p n t e :: out, ?_⟩
      simp [extract_image_posts, hn, htim, hext, hout]
    · refine ⟨out, ?_⟩
      simp only [extract_image_posts, if_neg hg, hout]

theorem extract_image_posts_nil_of_none (imgURL board : String) :
    ∀ posts : List Post, (∀ p ∈ posts, (p.tim.isSome && p.ext.isSome) = false) →
      extract_image_posts imgURL board posts = some [] := by
  intro posts
  induction posts with
  | nil => exact fun _ => rfl
  | cons p rest ih =>
    intro h
    have hg : ¬((p.tim.isSome && p.ext.isSome) = true) := by simp [h p (by simp)]
    simp only [extract_image_posts, if_neg hg]
    exact ih fun q hq => h q (by simp [hq])

theorem extract_image_posts_forall2 (imgURL board : String) :
    ∀ (posts : List Post) (out : List Record),
      extract_image_posts imgURL board posts = some out →
      out.length = (posts.filter fun p => p.tim.isSome && p.ext.isSome).length ∧
      List.Forall₂ (fun p r =>
          List.lookup "url" r =
            some (Val.str (imgURL ++ "/" ++ board ++ "/" ++ natRepr (p.tim.getD 0) ++ p.ext.getD "")))
        (posts.filter fun p => p.tim.isSome && p.ext.isSome) out := by
  intro posts
  induction posts with
  | nil =>
    intro out h
    simp only [extract_image_posts, Option.some.injEq] at h
    subst h
    exact ⟨rfl, List.Forall₂.nil⟩
  | cons p rest ih =>
    intro out h
    by_cases hg : (p.tim.isSome && p.ext.isSome) = true
    · obtain ⟨ht, he⟩ := Bool.and_eq_true_iff.mp hg
      obtain ⟨t, htim⟩ := Option.isSome_iff_exists.mp ht
      obtain ⟨e, hext⟩ := Option.isSome_iff_exists.mp he
      cases hno : p.no with
      | none => simp [extract_image_posts, htim, hext, hno] at h
      | some n =>
        cases hrest : extract_image_posts imgURL board rest with
        | none => simp [extract_image_posts, htim, hext, hno, hrest] at h
        | some out2 =>
          simp only [extract_image_posts, htim, hext, hno, hrest, Option.isSome_some,
            Bool.and_self, if_true, Option.map_some', Option.some.injEq] at h
          subst h
          obtain ⟨hlen, hf⟩ := ih out2 hrest
          refine ⟨by simp [List.filter_cons, hg, hlen], ?_⟩
          rw [List.filter_cons, if_pos hg]
          refine List.Forall₂.cons ?_ hf
          rw [htim, hext]
          rfl
    · simp only [extract_image_posts, if_neg hg] at h
      obtain ⟨hlen, hf⟩ := ih out h
      refine ⟨by simp [List.filter_cons, hg, hlen], ?_⟩
      rw [List.filter_cons, if_neg hg]
      exact hf

theorem imagePath_ne_threadListPath (basePath board : String) (tn : Nat) :
    imagePath basePath board tn ≠ threadListPath basePath := by
  intro h
  have e1 : imagePath basePath board tn =
      (basePath ++ "/") ++ ("images" ++ ("/" ++ imageFileName board tn)) := by
    unfold imagePath pathJoin
    rw [String.append_assoc, String.append_assoc]
  have e2 : threadListPath basePath = (basePath ++ "/") ++ "thread_list.json" := rfl
  rw [e1, e2] at h
  have h2 := str_append_cancel h
  have h3 := congrArg (fun s => s.data.head?) h2
  have h4 : (some 'i' : Option Char) = some 't' := h3
  simp at h4

/-- C1: for every catalog whose flattened page-order/within-page-order
sequence has T thread summaries (each carrying its thread number), and for
every count and offset, fetch_top_threads selects exactly
min(count, T - offset) threads (truncated subtraction, so max(0, ...) over
the integers), the selection is exactly the contiguous slice
[offset, offset + count) of the flattened catalog, and when offset ≥ T the
selection is empty and the run completes with zero tasks dispatched and no
error. -/
theorem catalog_selection_spec (catalog : List Page) (count offset : Nat)
    (h : ∀ t ∈ flattenCatalog catalog, t.no.isSome = true) :
    ∃ sel, selectThreads catalog count offset = some sel ∧
      sel.length = min count ((flattenCatalog catalog).length - offset) ∧
      sel = (((flattenCatalog catalog).drop offset).take count).map (fun t => t.no.getD 0) ∧
      ((flattenCatalog catalog).length ≤ offset →
        sel = [] ∧
        ∀ (env : Env) (board basePath : String) (st : RunState),
          env.catalogResult = .ok catalog →
          fetch_top_threads env board basePath count offset st = .ok st) := by
  have hsel : selectThreads catalog count offset =
      some ((((flattenCatalog catalog).drop offset).take count).map fun t => t.no.getD 0) := by
    unfold selectThreads
    apply mapOrFail_eq_map
    intro t ht
    have hmem : t ∈ flattenCatalog catalog :=
      List.drop_subset _ _ (List.take_subset _ _ ht)
    cases htn : t.no with
    | none =>
      have hsome := h t hmem
      rw [htn] at hsome
      simp at hsome
    | some n => rfl
  refine ⟨_, hsel, ?_, rfl, ?_⟩
  · simp [List.length_take, List.length_drop]
  · intro hle
    have hnil : ((flattenCatalog catalog).drop offset).take count = [] := by
      rw [List.drop_eq_nil_of_le hle]
      simp
    refine ⟨by simp [hnil], ?_⟩
    intro env board basePath st hcat
    have hsel2 : selectThreads catalog count offset = some [] := by
      rw [hsel, hnil]
      simp
    simp [fetch_top_threads, hcat, hsel2]

/-- Witness for C1 on the concrete catalog cat1 (flattened thread numbers
111, 222, 333): count 2 at offset 0 selects the first two summaries, and
offset 5 past the end yields an empty selection and an error-free run that
changes nothing. -/
theorem catalog_selection_spec_witness :
    selectThreads cat1 2 0 =
      some ((((flattenCatalog cat1).drop 0).take 2).map fun t => t.no.getD 0) ∧
    selectThreads cat1 2 5 = some [] ∧
    fetch_top_threads envCat1 "g" "o/g" 2 5 rs0 = .ok rs0 := by
  obtain ⟨s1, hs1, _, hmap1, _⟩ := catalog_selection_spec cat1 2 0 (by decide)
  obtain ⟨s2, hs2, _, _, hemp⟩ := catalog_selection_spec cat1 2 5 (by decide)
  obtain ⟨hnil2, hrun⟩ := hemp (by decide)
  refine ⟨?_, ?_, hrun envCat1 "g" "o/g" rs0 rfl⟩
  · rw [hs1, hmap1]
  · rw [hs2, hnil2]

/-- C2: a failure inside a single per-thread task is caught at the task
boundary and logged with that thread number (fetch_and_save_thread is a
total function and appends exactly one error-log entry naming the thread),
every sibling task still runs (the run result folds over the whole
selection), and the run as a whole errors exactly when the catalog fetch
fails or the orchestrator-level selection step raises. -/
theorem per_thread_failure_isolated (env : Env) (board basePath : String) (count offset : Nat) (st : RunState) :
    ((∃ e, fetch_top_threads env board basePath count offset st = .error e) ↔
      ((∃ e, env.catalogResult = .error e) ∨
       (∃ c, env.catalogResult = .ok c ∧ selectThreads c count offset = none))) ∧
    (∀ c sel, env.catalogResult = .ok c → selectThreads c count offset = some sel →
       fetch_top_threads env board basePath count offset st =
         .ok (sel.foldl (fun s tn => fetch_and_save_thread env board basePath tn s) st)) ∧
    (∀ (tn : Nat) (s s1 : RunState) (e : String),
       threadPipeline env board basePath tn s = (s1, some e) →
       fetch_and_save_thread env board basePath tn s =
         { s1 with errLog := s1.errLog ++ ["Failed to process thread " ++ natRepr tn ++ ": " ++ e] }) := by
  refine ⟨?_, ?_, ?_⟩
  · cases hcat : env.catalogResult with
    | error e => simp [fetch_top_threads, hcat]
    | ok c =>
      cases hselc : selectThreads c count offset with
      | none => simp [fetch_top_threads, hcat, hselc]
      | some sel => simp [fetch_top_threads, hcat, hselc]
  · intro c sel hcat hsel
    simp [fetch_top_threads, hcat, hsel]
  · intro tn s s1 e hp
    simp [fetch_and_save_thread, hp]

/-- Witness for C2: in envMixed the fetch of thread 111 fails with a
transport error, yet the run over selection [111, 222] completes without
error and still processes thread 222. -/
theorem per_thread_failure_isolated_witness :
    fetch_top_threads envMixed "g" "o/g" 2 0 rs0 =
      .ok ([111, 222].foldl (fun s tn => fetch_and_save_thread envMixed "g" "o/g" tn s) rs0) :=
  (per_thread_failure_isolated envMixed "g" "o/g" 2 0 rs0).2.1 cat1 [111, 222] rfl rfl

/-- C3 counterexample: the claim says the thread-starter extraction never
raises for every thread JSON input, but on a post that carries a subject
and no post number the code subscripts the missing no key and raises
KeyError (modelled as none), so extraction is not total on all inputs. -/
theorem extract_starters_missing_no_raises :
    extract_thread_starters [subOnlyPost] = none := rfl

/-- C3 (amended): on every thread input whose posts carry the no key
whenever they carry the selector fields (subject for starters, media
timestamp plus extension for images), both extractions complete without
raising, missing optional fields defaulting to empty or zero, and the
starter output length is at most the post count with equality exactly when
every post has a subject field. -/
theorem extraction_totality_amended (board : String) (posts : List Post)
    (h1 : ∀ p ∈ posts, p.sub.isSome = true → p.no.isSome = true)
    (h2 : ∀ p ∈ posts, (p.tim.isSome && p.ext.isSome) = true → p.no.isSome = true) :
    (∃ out, extract_thread_starters posts = some out ∧
       out.length = (posts.filter fun p => p.sub.isSome).length ∧
       out.length ≤ posts.length ∧
       (out.length = posts.length ↔ ∀ p ∈ posts, p.sub.isSome = true)) ∧
    ∃ outI, extract_image_posts IMAGE_URL board posts = some outI := by
  refine ⟨?_, extract_image_posts_some IMAGE_URL board posts h2⟩
  obtain ⟨out, hout, hlen⟩ := extract_thread_starters_length posts h1
  refine ⟨out, hout, hlen, ?_, ?_⟩
  · rw [hlen]
    exact List.length_filter_le _ _
  · rw [hlen]
    exact List.filter_length_eq_length

/-- Witness for C3 (amended): on the well-formed one-post thread imgPost
both extractions succeed. -/
theorem extraction_totality_amended_witness :
    (extract_thread_starters [imgPost]).isSome = true ∧
    (extract_image_posts IMAGE_URL "g" [imgPost]).isSome = true := by
  obtain ⟨⟨out, hout, _, _, _⟩, ⟨outI, houtI⟩⟩ :=
    extraction_totality_amended "g" [imgPost] (by decide) (by decide)
  exact ⟨by rw [hout]; rfl, by rw [houtI]; rfl⟩

/-- C4: whenever the image-post extraction completes, it includes exactly
the posts carrying both a media-timestamp field and an extension field (in
order, one output record per such post), and the synthesized url field of
every included record equals the image base, a slash, the board, a slash,
then tim immediately followed by ext. -/
theorem image_post_url_spec (board : String) (posts : List Post) (out : List Record)
    (h : extract_image_posts IMAGE_URL board posts = some out) :
    out.length = (posts.filter fun p => p.tim.isSome && p.ext.isSome).length ∧
    List.Forall₂ (fun p r =>
        List.lookup "url" r =
          some (Val.str (IMAGE_URL ++ "/" ++ board ++ "/" ++ natRepr (p.tim.getD 0) ++ p.ext.getD "")))
      (posts.filter fun p => p.tim.isSome && p.ext.isSome) out :=
  extract_image_posts_forall2 IMAGE_URL board posts out h

/-- Witness for C4: on the one-post thread imgPost (tim 160, ext .jpg) the
extracted record carries url equal to the image base plus /g/160.jpg. -/
theorem image_post_url_spec_witness :
    List.lookup "url" (imageRecord IMAGE_URL "g" imgPost 7 160 ".jpg") =
      some (Val.str (IMAGE_URL ++ "/" ++ "g" ++ "/" ++ natRepr 160 ++ ".jpg")) := by
  have H := (image_post_url_spec "g" [imgPost] [imageRecord IMAGE_URL "g" imgPost 7 160 ".jpg"] rfl).2
  rw [show (List.filter (fun p => p.tim.isSome && p.ext.isSome) [imgPost]) = [imgPost] from rfl] at H
  cases H with
  | cons hhead _ => exact hhead

/-- C5: session construction validates the candidate board against the
static allow-list before any I/O: validation succeeds silently exactly for
allow-listed boards, otherwise construction fails with the invalid-board
error carrying the offending value and performs no side effect at all, and
even a successful construction performs no network call. -/
theorem board_validation_spec (board outputDir : String) :
    (validate_board_name board = .ok () ↔ board ∈ valid_boards) ∧
    (board ∉ valid_boards →
       fetcherInit board outputDir =
         (.error ("The board \x27" ++ board ++ "\x27 is not a valid 4chan board."), [])) ∧
    (∀ ev ∈ (fetcherInit board outputDir).2, ∀ url, ev ≠ InitEvent.httpGet url) := by
  refine ⟨?_, ?_, ?_⟩
  · by_cases h : board ∈ valid_boards
    · simp [validate_board_name, h]
    · simp [validate_board_name, h]
  · intro h
    simp [fetcherInit, validate_board_name, h]
  · intro ev hev url
    by_cases h : board ∈ valid_boards
    · simp [fetcherInit, validate_board_name, h, create_directories] at hev
      subst hev
      simp
    · simp [fetcherInit, validate_board_name, h] at hev

/-- Witness for C5: the board zq is not allow-listed, so construction
fails with the invalid-board message carrying zq and performs no effect;
the board g is allow-listed and validates. -/
theorem board_validation_spec_witness :
    fetcherInit "zq" "." =
      (.error ("The board \x27" ++ "zq" ++ "\x27 is not a valid 4chan board."), []) ∧
    (validate_board_name "g" = .ok () ↔ "g" ∈ valid_boards) :=
  ⟨(board_validation_spec "zq" ".").2.1 (by decide), (board_validation_spec "g" ".").1⟩

/-- C6: fetching the same thread twice writes the per-thread image file in
overwrite mode, so afterwards that file holds exactly the image records of
the latest fetch, while the thread starter records are appended to the
shared thread_list.json, which accumulates both sets of lines after
whatever it already held, with no deduplication. -/
theorem refetch_overwrite_append (env1 env2 : Env) (board basePath : String) (tn : Nat)
    (st0 : RunState) (td1 td2 : ThreadData) (recs1 imgs1 recs2 imgs2 : List Record)
    (henv1 : env1.threadResult tn = .ok td1)
    (henv2 : env2.threadResult tn = .ok td2)
    (hs1 : extract_thread_starters (td1.posts.getD []) = some recs1)
    (hi1 : extract_image_posts IMAGE_URL board (td1.posts.getD []) = some imgs1)
    (hs2 : extract_thread_starters (td2.posts.getD []) = some recs2)
    (hi2 : extract_image_posts IMAGE_URL board (td2.posts.getD []) = some imgs2) :
    (fetch_and_save_thread env2 board basePath tn
        (fetch_and_save_thread env1 board basePath tn st0)).fs (imagePath basePath board tn) =
      some (linesOf imgs2) ∧
    (fetch_and_save_thread env2 board basePath tn
        (fetch_and_save_thread env1 board basePath tn st0)).fs (threadListPath basePath) =
      some (((st0.fs (threadListPath basePath)).getD "" ++ linesOf recs1) ++ linesOf recs2) := by
  have hne : threadListPath basePath ≠ imagePath basePath board tn :=
    Ne.symm (imagePath_ne_threadListPath basePath board tn)
  have e1 : fetch_and_save_thread env1 board basePath tn st0 =
      { st0 with fs := (save_to_json imgs1 (imagePath basePath board tn) false
          (save_to_json recs1 (threadListPath basePath) true st0.fs)) } := by
    simp [fetch_and_save_thread, threadPipeline, henv1, save_thread_starter, save_image_posts,
      hs1, hi1]
  have e2 : ∀ s : RunState, fetch_and_save_thread env2 board basePath tn s =
      { s with fs := (save_to_json imgs2 (imagePath basePath board tn) false
          (save_to_json recs2 (threadListPath basePath) true s.fs)) } := by
    intro s
    simp [fetch_and_save_thread, threadPipeline, henv2, save_thread_starter, save_image_posts,
      hs2, hi2]
  rw [e1, e2]
  constructor
  · simp [save_to_json_spec, FS.set, hne, str_empty_append]
  · simp [save_to_json_spec, FS.set, hne, str_empty_append]

/-- Witness for C6: fetching thread 160 first with payload tdA and then
with payload tdB leaves the image file holding only the tdB image line
while thread_list.json holds the tdA starter line followed by the tdB
starter line. -/
theorem refetch_overwrite_append_witness :
    (fetch_and_save_thread envB "g" "o/g" 160
        (fetch_and_save_thread envA "g" "o/g" 160 rs0)).fs (imagePath "o/g" "g" 160) =
      some (linesOf [imageRecord IMAGE_URL "g" imgPost2 8 161 ".png"]) ∧
    (fetch_and_save_thread envB "g" "o/g" 160
        (fetch_and_save_thread envA "g" "o/g" 160 rs0)).fs (threadListPath "o/g") =
      some (((rs0.fs (threadListPath "o/g")).getD "" ++ linesOf [starterRecord imgPost 7]) ++
        linesOf [starterRecord imgPost2 8]) :=
  refetch_overwrite_append envA envB "g" "o/g" 160 rs0 tdA tdB
    [starterRecord imgPost 7] [imageRecord IMAGE_URL "g" imgPost 7 160 ".jpg"]
    [starterRecord imgPost2 8] [imageRecord IMAGE_URL "g" imgPost2 8 161 ".png"]
    rfl rfl rfl rfl rfl rfl

/-- C7: for every record sequence, path and mode flag, the writer performs
one scoped open-write-close (a single file-system update), the new
contents are the old contents (empty in truncate mode) followed by one
serialized JSON line per record in input order, each terminated by a
newline, and no serialized record contains an interior newline. -/
theorem save_to_json_line_format (data : List Record) (filename : String) (append : Bool) (fs : FS) :
    save_to_json_run data filename append none fs =
      { fs := FS.set fs filename ((if append then (fs filename).getD "" else "") ++ linesOf data),
        raised := false,
        log := ["Saving data to " ++ filename] } ∧
    ∀ r : Record, nlFree (dumps r) := by
  refine ⟨?_, fun r => nlFree_dumps r⟩
  unfold save_to_json_run
  rw [writeLoop_none]
  simp [str_empty_append]

/-- Witness for C7: writing the single record rec0 to a fresh file leaves
exactly its one line, and the serialization of rec0 is newline-free. -/
theorem save_to_json_line_format_witness :
    (save_to_json_run [rec0] "f.json" false none emptyFS).fs "f.json" = some (linesOf [rec0]) ∧
    nlFree (dumps rec0) := by
  have H := save_to_json_line_format [rec0] "f.json" false emptyFS
  refine ⟨?_, H.2 rec0⟩
  rw [H.1]
  rfl

/-- C8: when the write of record k raises midway through a sequence, the
records written before the failure remain in the file (old contents plus
the first k lines, no rollback), and the error is logged and re-raised to
the caller rather than swallowed. -/
theorem save_to_json_write_failure (data : List Record) (filename : String) (append : Bool)
    (fs : FS) (k : Nat) (h : k < data.length) :
    save_to_json_run data filename append (some k) fs =
      { fs := FS.set fs filename
          ((if append then (fs filename).getD "" else "") ++ linesOf (data.take k)),
        raised := true,
        log := ["Saving data to " ++ filename, "Error saving data to " ++ filename] } := by
  unfold save_to_json_run
  rw [writeLoop_stop data k "" h]
  simp [str_empty_append]

/-- Witness for C8: a write failure on the second of two records leaves
the first record in the file and re-raises. -/
theorem save_to_json_write_failure_witness :
    (save_to_json_run [rec0, rec1] "f.json" false (some 1) emptyFS).raised = true ∧
    (save_to_json_run [rec0, rec1] "f.json" false (some 1) emptyFS).fs "f.json" =
      some (linesOf [rec0]) := by
  have H := save_to_json_write_failure [rec0, rec1] "f.json" false emptyFS 1 (by decide)
  refine ⟨by rw [H], ?_⟩
  rw [H]
  rfl

/-- C9: per-thread tasks run on a bounded pool of fixed concurrency 5
(the max_workers constant of the executor), so in every reachable
scheduling state at most 5 tasks are in flight while the dispatched tasks
remain exactly the selected thread numbers; and the catalog fetch strictly
precedes any per-thread work, since a failed catalog fetch aborts the run
before anything is dispatched. -/
theorem worker_pool_bounded (count offset : Nat) :
    (∀ (sel : List Nat) (s : PoolState), poolReachable sel s →
       s.inFlight.length ≤ 5 ∧ (s.pending ++ s.inFlight ++ s.completed).Perm sel) ∧
    (∀ (env : Env) (e board basePath : String) (st : RunState),
       env.catalogResult = .error e →
       fetch_top_threads env board basePath count offset st = .error e) := by
  constructor
  · intro sel s h
    unfold poolReachable at h
    induction h with
    | refl => exact ⟨by simp [initPool], by simp [initPool]⟩
    | tail hsteps hstep ih =>
      obtain ⟨ihb, ihp⟩ := ih
      cases hstep with
      | dispatch tn pending inFlight completed hlt =>
        have h5 : inFlight.length < 5 := hlt
        refine ⟨by simp; omega, ?_⟩
        refine List.Perm.trans ?_ ihp
        simp only [List.cons_append, List.append_assoc]
        exact List.perm_middle
      | complete tn pending front back completed =>
        constructor
        · simp only [List.length_append] at ihb ⊢
          simp only [List.length_cons] at ihb
          omega
        · refine List.Perm.trans ?_ ihp
          simp only [List.append_assoc, List.cons_append]
          refine List.Perm.append_left pending ?_
          refine List.Perm.append_left front ?_
          exact List.perm_middle
  · intro env e board basePath st hcat
    simp [fetch_top_threads, hcat]

/-- Witness for C9: the initial pool for selection [111, 222, 333] is
within the bound and accounts for exactly the selection, and a run whose
catalog fetch fails aborts with that error. -/
theorem worker_pool_bounded_witness :
    (initPool [111, 222, 333]).inFlight.length ≤ 5 ∧
    ((initPool [111, 222, 333]).pending ++ (initPool [111, 222, 333]).inFlight ++
        (initPool [111, 222, 333]).completed).Perm [111, 222, 333] ∧
    fetch_top_threads envCatFail "g" "o/g" 5 0 rs0 = .error "Timeout" := by
  have H := worker_pool_bounded 5 0
  obtain ⟨hb, hp⟩ := H.1 [111, 222, 333] (initPool [111, 222, 333]) Relation.ReflTransGen.refl
  exact ⟨hb, hp, H.2 envCatFail "Timeout" "g" "o/g" rs0 rfl⟩

/-- C10: calling the writer with an empty record sequence still opens the
target: truncate mode leaves the file existing and empty, append mode
creates an absent file empty and leaves an existing file unchanged (and
touches no other file); consequently a successfully fetched thread with no
image posts ends with an empty per-thread image file. -/
theorem empty_write_behavior (filename : String) (fs : FS) (env : Env)
    (board basePath : String) (tn : Nat) (st : RunState) (td : ThreadData) (recs : List Record)
    (henv : env.threadResult tn = .ok td)
    (hst : extract_thread_starters (td.posts.getD []) = some recs)
    (hni : ∀ p ∈ td.posts.getD [], (p.tim.isSome && p.ext.isSome) = false) :
    save_to_json [] filename false fs filename = some "" ∧
    save_to_json [] filename true fs filename = some ((fs filename).getD "") ∧
    (∀ q, q ≠ filename → save_to_json [] filename true fs q = fs q) ∧
    (fetch_and_save_thread env board basePath tn st).fs (imagePath basePath board tn) =
      some "" := by
  refine ⟨?_, ?_, ?_, ?_⟩
  · rw [save_to_json_spec, FS.set_self]
    rfl
  · rw [save_to_json_spec, FS.set_self]
    simp [linesOf, concatAll, str_append_empty]
  · intro q hq
    rw [save_to_json_spec, FS.set_other _ _ hq]
  · have himg : extract_image_posts IMAGE_URL board (td.posts.getD []) = some [] :=
      extract_image_posts_nil_of_none IMAGE_URL board _ hni
    simp only [fetch_and_save_thread, threadPipeline, henv, save_thread_starter, hst,
      save_image_posts, himg]
    rw [save_to_json_spec, FS.set_self]
    rfl

/-- Witness for C10: an empty write in truncate mode creates an empty
file, and processing the empty thread tdEmpty leaves an empty image file
for thread 9. -/
theorem empty_write_behavior_witness :
    save_to_json [] "f.json" false emptyFS "f.json" = some "" ∧
    (fetch_and_save_thread envEmpty "g" "o/g" 9 rs0).fs (imagePath "o/g" "g" 9) = some "" := by
  have H := empty_write_behavior "f.json" emptyFS envEmpty "g" "o/g" 9 rs0 tdEmpty [] rfl rfl
    (by intro p hp; exact absurd hp (List.not_mem_nil p))
  exact ⟨H.1, H.2.2.2⟩

end FetchFourChan
